import Mathlib

/-!
Shallow embedding of `src/main.py` (auto-annoy): a per-guild access-control
and auto-responder configuration store.  Python dicts become association
lists, timestamps become rationals, and the effectful handlers become pure
functions threading the state document and the pending-confirmation map.
-/

set_option linter.unusedVariables false

/-- One tenant's configuration: mirrors the dict created in
`get_guild_state` with fields `adminIDs`, `targetIDs`, `message`. -/
structure GuildState where
  adminIDs : List Int
  targetIDs : List Int
  message : String
deriving Repr, DecidableEq

/-- The state document: Python's top-level `state` dict, keyed by
`str(guild_id)`; since `str` is injective on ints, we key by the id. -/
def StateDoc := List (Int × GuildState)
deriving Repr, DecidableEq

instance : Membership (Int × GuildState) StateDoc := inferInstanceAs (Membership _ (List _))

/-- Dict lookup: first binding for the key (a Python dict has one per key). -/
def lookupGuild (doc : StateDoc) (g : Int) : Option GuildState :=
  match doc with
  | [] => none
  | (k, v) :: rest => if k = g then some v else lookupGuild rest g

/-- Dict store: replace the binding for `g`, or append a fresh one. -/
def setGuild (doc : StateDoc) (g : Int) (gs : GuildState) : StateDoc :=
  match doc with
  | [] => [(g, gs)]
  | (k, v) :: rest => if k = g then (k, gs) :: rest else (k, v) :: setGuild rest g gs

/-- The tenant's `adminIDs` as seen through the document, defaulting to `[]`
for an absent record (spec I3: absence is logically default-empty config). -/
def adminView (doc : StateDoc) (g : Int) : List Int :=
  ((lookupGuild doc g).map GuildState.adminIDs).getD []

/-- The tenant's `targetIDs` seen through the document, default `[]`. -/
def targetView (doc : StateDoc) (g : Int) : List Int :=
  ((lookupGuild doc g).map GuildState.targetIDs).getD []

/-- The tenant's configured `message` seen through the document, default `""`. -/
def messageView (doc : StateDoc) (g : Int) : String :=
  ((lookupGuild doc g).map GuildState.message).getD ""

/-- `get_guild_state(state, guild_id, owner_id=None)` (main.py:95-134):
get-or-initialize the tenant record; when the record exists, an owner id not
yet in `adminIDs` is appended (self-healing, with a best-effort save whose
failure is only logged and does not change any state we model).  Returns the
record together with the possibly-updated document. -/
def get_guild_state (doc : StateDoc) (g : Int) (owner : Option Int) :
    GuildState × StateDoc :=
  match lookupGuild doc g with
  | none =>
      let adminIds : List Int := match owner with
        | some o => [o]
        | none => []
      let gs : GuildState := ⟨adminIds, [], ""⟩
      (gs, setGuild doc g gs)
  | some gs =>
      match owner with
      | some o =>
          if o ∈ gs.adminIDs then (gs, doc)
          else
            let gs' : GuildState := { gs with adminIDs := gs.adminIDs ++ [o] }
            (gs', setGuild doc g gs')
      | none => (gs, doc)

/-- `is_admin(state, guild_id, user_id, owner_id)` (main.py:136-141): the
owner check short-circuits; otherwise membership in the (self-healed)
`adminIDs`.  Returns the answer and the possibly-updated document. -/
def is_admin (doc : StateDoc) (g userId ownerId : Int) : Bool × StateDoc :=
  if userId = ownerId then (true, doc)
  else
    let r := get_guild_state doc g (some ownerId)
    (decide (userId ∈ r.1.adminIDs), r.2)

/-- `is_target(state, guild_id, user_id, owner_id=None)` (main.py:143-146). -/
def is_target (doc : StateDoc) (g userId : Int) (ownerId : Option Int) :
    Bool × StateDoc :=
  let r := get_guild_state doc g ownerId
  (decide (userId ∈ r.1.targetIDs), r.2)

/-- `pending_confirmations` (main.py:149): keyed by `f"{guild_id}_{user_id}"`
(injective on int pairs), value the issuance timestamp.  Timestamps are
rationals standing for `datetime.now().timestamp()`. -/
def PendingMap := List ((Int × Int) × ℚ)
deriving Repr, DecidableEq

/-- Lookup of a pending confirmation. -/
def lookupPending (p : PendingMap) (g u : Int) : Option ℚ :=
  match p with
  | [] => none
  | (k, v) :: rest => if k = (g, u) then some v else lookupPending rest g u

/-- Store/overwrite a pending confirmation. -/
def setPending (p : PendingMap) (g u : Int) (t : ℚ) : PendingMap :=
  match p with
  | [] => [((g, u), t)]
  | (k, v) :: rest =>
      if k = (g, u) then (k, t) :: rest else (k, v) :: setPending rest g u t

/-- Delete any pending confirmation for the key. -/
def erasePending (p : PendingMap) (g u : Int) : PendingMap :=
  match p with
  | [] => []
  | (k, v) :: rest =>
      if k = (g, u) then rest else (k, v) :: erasePending rest g u

/-- `request_confirmation(guild_id, user_id)` (main.py:151-154): record or
overwrite the current timestamp for the key. -/
def request_confirmation (p : PendingMap) (g u : Int) (now : ℚ) : PendingMap :=
  setPending p g u now

/-- `check_confirmation(guild_id, user_id)` (main.py:156-175): true iff an
entry exists and `now - request_time <= 60`; an expired entry is deleted as a
side effect.  Returns the answer and the possibly-updated map. -/
def check_confirmation (p : PendingMap) (g u : Int) (now : ℚ) :
    Bool × PendingMap :=
  match lookupPending p g u with
  | none => (false, p)
  | some requestTime =>
      if now - requestTime ≤ 60 then (true, p)
      else (false, erasePending p g u)

/-- `clear_confirmation(guild_id, user_id)` (main.py:177-181). -/
def clear_confirmation (p : PendingMap) (g u : Int) : PendingMap :=
  erasePending p g u

/-- Outcome of one write attempt in `save_state`: `none` means the write
succeeded, `some e` means it raised with cause `e`. -/
def AttemptOutcomes (ε : Type) := Nat → Option ε

/-- Observable result of `save_state`: how many write attempts ran, how many
`RETRY_DELAY` (0.5 s) sleeps were performed between them, and `none` on
success or `some e` when the final `IOError` is raised with last cause `e`. -/
structure SaveResult (ε : Type) where
  attempts : Nat
  delays : Nat
  outcome : Option ε
deriving Repr, DecidableEq

/-- The retry loop body of `save_state` (main.py:73-89): `remaining` counts
the loop iterations left out of `MAX_SAVE_RETRIES`, `attempt` is the 0-based
loop index; the `RETRY_DELAY` sleep runs only after a failed attempt that is
not the last one (`attempt < MAX_SAVE_RETRIES - 1`, i.e. iterations remain). -/
def saveStateGo {ε : Type} (outcomes : AttemptOutcomes ε) :
    Nat → Nat → Option ε → Nat → SaveResult ε
  | 0, attempt, lastError, delays => ⟨attempt, delays, lastError⟩
  | r + 1, attempt, _, delays =>
      match outcomes attempt with
      | none => ⟨attempt + 1, delays, none⟩
      | some e =>
          saveStateGo outcomes r (attempt + 1) (some e)
            (if 0 < r then delays + 1 else delays)

/-- `save_state(state)` (main.py:64-93) with `MAX_SAVE_RETRIES = 3`,
abstracted over the success/failure of each underlying write attempt. -/
def save_state {ε : Type} (outcomes : AttemptOutcomes ε) : SaveResult ε :=
  saveStateGo outcomes 3 0 none 0

/-- Condition of the backing store when `load_state` runs: mirrors the four
ways main.py:37-62 can go (file present and parsing, file absent,
`json.JSONDecodeError`, `IOError`, any other exception). -/
inductive StoreCondition
  | ok (doc : StateDoc)
  | absent
  | malformed
  | ioError
  | otherError
deriving Repr, DecidableEq

/-- `load_state()` (main.py:37-62): returns the parsed document when the file
exists and parses; every failure branch returns the empty document. -/
def load_state : StoreCondition → StateDoc
  | .ok doc => doc
  | .absent => []
  | .malformed => []
  | .ioError => []
  | .otherError => []

/-- The response sent back to the invoking actor (ephemeral in every case);
one constructor per distinct `interaction.response.send_message` call site. -/
inductive Response
  | noPermission
  | cannotAddBotAdmin
  | alreadyAdmin
  | addedAdmin (u : Int)
  | cannotRemoveOwner
  | notAnAdmin (u : Int)
  | removedSelf
  | confirmPrompt
  | removedOther (u : Int)
  | cannotAddBotTarget
  | alreadyTarget
  | addedTarget (u : Int)
  | notATarget (u : Int)
  | removedTarget (u : Int)
  | setMessageOk (text : String)
  | saveFailed
deriving Repr, DecidableEq

/-- Whether a response is one of the success confirmations sent after a
successful `save_state`. -/
def Response.isSuccess : Response → Bool
  | .addedAdmin _ => true
  | .removedSelf => true
  | .removedOther _ => true
  | .addedTarget _ => true
  | .removedTarget _ => true
  | .setMessageOk _ => true
  | _ => false

/-- The `action` choice of the `/admin` and `/target` commands. -/
inductive CmdAction
  | add
  | remove
deriving Repr, DecidableEq

/-- Result of running one command handler: the response plus the updated
document and pending-confirmation map. -/
structure CmdResult where
  resp : Response
  doc : StateDoc
  pending : PendingMap
deriving Repr, DecidableEq

/-- `admin_command` (main.py:252-334).  `saveOk` abstracts whether the
`save_state` call at the mutation site succeeds (it only selects the
response; the in-memory mutation is applied either way, as in the source).
`now` is the current timestamp used by the confirmation protocol, and
`isBot` is the platform's bot flag on the named user. -/
def admin_command (doc : StateDoc) (pending : PendingMap)
    (g executorId ownerId targetUserId : Int) (isBot : Bool)
    (action : CmdAction) (now : ℚ) (saveOk : Bool) : CmdResult :=
  let ad := is_admin doc g executorId ownerId
  if ad.1 = false then
    ⟨.noPermission, ad.2, pending⟩
  else
    let gd := get_guild_state ad.2 g none
    let gs := gd.1
    let doc1 := gd.2
    match action with
    | .add =>
        if isBot then ⟨.cannotAddBotAdmin, doc1, pending⟩
        else if targetUserId ∈ gs.adminIDs ∨ targetUserId = ownerId then
          ⟨.alreadyAdmin, doc1, pending⟩
        else
          let gs' := { gs with adminIDs := gs.adminIDs ++ [targetUserId] }
          let doc2 := setGuild doc1 g gs'
          if saveOk then ⟨.addedAdmin targetUserId, doc2, pending⟩
          else ⟨.saveFailed, doc2, pending⟩
    | .remove =>
        if targetUserId = ownerId then ⟨.cannotRemoveOwner, doc1, pending⟩
        else if targetUserId ∉ gs.adminIDs then
          ⟨.notAnAdmin targetUserId, doc1, pending⟩
        else if targetUserId = executorId then
          let ck := check_confirmation pending g executorId now
          if ck.1 then
            let gs' := { gs with adminIDs := gs.adminIDs.erase targetUserId }
            let doc2 := setGuild doc1 g gs'
            let pending2 := clear_confirmation ck.2 g executorId
            if saveOk then ⟨.removedSelf, doc2, pending2⟩
            else ⟨.saveFailed, doc2, pending2⟩
          else
            ⟨.confirmPrompt, doc1, request_confirmation ck.2 g executorId now⟩
        else
          let gs' := { gs with adminIDs := gs.adminIDs.erase targetUserId }
          let doc2 := setGuild doc1 g gs'
          if saveOk then ⟨.removedOther targetUserId, doc2, pending⟩
          else ⟨.saveFailed, doc2, pending⟩

/-- `target_command` (main.py:345-399); here `get_guild_state` is called with
the owner id, so the authorization self-heal can also fire there. -/
def target_command (doc : StateDoc) (pending : PendingMap)
    (g executorId ownerId targetUserId : Int) (isBot : Bool)
    (action : CmdAction) (saveOk : Bool) : CmdResult :=
  let ad := is_admin doc g executorId ownerId
  if ad.1 = false then
    ⟨.noPermission, ad.2, pending⟩
  else
    let gd := get_guild_state ad.2 g (some ownerId)
    let gs := gd.1
    let doc1 := gd.2
    match action with
    | .add =>
        if isBot then ⟨.cannotAddBotTarget, doc1, pending⟩
        else if targetUserId ∈ gs.targetIDs then ⟨.alreadyTarget, doc1, pending⟩
        else
          let gs' := { gs with targetIDs := gs.targetIDs ++ [targetUserId] }
          let doc2 := setGuild doc1 g gs'
          if saveOk then ⟨.addedTarget targetUserId, doc2, pending⟩
          else ⟨.saveFailed, doc2, pending⟩
    | .remove =>
        if targetUserId ∉ gs.targetIDs then ⟨.notATarget targetUserId, doc1, pending⟩
        else
          let gs' := { gs with targetIDs := gs.targetIDs.erase targetUserId }
          let doc2 := setGuild doc1 g gs'
          if saveOk then ⟨.removedTarget targetUserId, doc2, pending⟩
          else ⟨.saveFailed, doc2, pending⟩

/-- `setmessage_command` (main.py:405-430). -/
def setmessage_command (doc : StateDoc) (pending : PendingMap)
    (g executorId ownerId : Int) (text : String) (saveOk : Bool) : CmdResult :=
  let ad := is_admin doc g executorId ownerId
  if ad.1 = false then
    ⟨.noPermission, ad.2, pending⟩
  else
    let gd := get_guild_state ad.2 g (some ownerId)
    let gs := gd.1
    let doc1 := gd.2
    let gs' := { gs with message := text }
    let doc2 := setGuild doc1 g gs'
    if saveOk then ⟨.setMessageOk text, doc2, pending⟩
    else ⟨.saveFailed, doc2, pending⟩

/-- `on_message` (main.py:205-240): the auto-reply path.  `isSelf` is the
`message.author == client.user` test, `authorIsBot` the platform bot flag on
the author (delivered with the event but never consulted by the handler),
`inGuild` whether the message carries a guild context.  Returns the list of
reply texts requested (sending is best-effort and excluded) plus the
possibly self-healed document. -/
def on_message (doc : StateDoc) (isSelf authorIsBot inGuild : Bool)
    (g authorId ownerId : Int) : List String × StateDoc :=
  if isSelf then ([], doc)
  else if !inGuild then ([], doc)
  else
    let tg := is_target doc g authorId (some ownerId)
    if tg.1 then
      let gd := get_guild_state tg.2 g (some ownerId)
      let replyMessage := gd.1.message
      if replyMessage ≠ "" then ([replyMessage], gd.2) else ([], gd.2)
    else ([], tg.2)

/-! ## Basic lemmas about the association-list maps -/

theorem lookupGuild_setGuild_self (doc : StateDoc) (g : Int) (gs : GuildState) :
    lookupGuild (setGuild doc g gs) g = some gs := by
  induction doc with
  | nil => simp [setGuild, lookupGuild]
  | cons kv rest ih =>
      obtain ⟨k, v⟩ := kv
      by_cases h : k = g <;> simp [setGuild, lookupGuild, h, ih]

theorem lookupGuild_setGuild_ne (doc : StateDoc) (g g' : Int) (gs : GuildState)
    (h : g' ≠ g) : lookupGuild (setGuild doc g gs) g' = lookupGuild doc g' := by
  induction doc with
  | nil => simp [setGuild, lookupGuild, Ne.symm h]
  | cons kv rest ih =>
      obtain ⟨k, v⟩ := kv
      by_cases hk : k = g
      · subst hk
        simp [setGuild, lookupGuild, Ne.symm h]
      · simp only [setGuild, if_neg hk, lookupGuild]
        by_cases hk' : k = g' <;> simp [hk', ih]

theorem setGuild_self_of_lookup (doc : StateDoc) (g : Int) (gs : GuildState)
    (h : lookupGuild doc g = some gs) : setGuild doc g gs = doc := by
  induction doc with
  | nil => simp [lookupGuild] at h
  | cons kv rest ih =>
      obtain ⟨k, v⟩ := kv
      by_cases hk : k = g
      · subst hk
        simp [lookupGuild] at h
        subst h
        simp [setGuild]
      · simp only [lookupGuild, if_neg hk] at h
        simp [setGuild, hk, ih h]

theorem lookupPending_setPending_self (p : PendingMap) (g u : Int) (t : ℚ) :
    lookupPending (setPending p g u t) g u = some t := by
  induction p with
  | nil => simp [setPending, lookupPending]
  | cons kv rest ih =>
      obtain ⟨k, v⟩ := kv
      by_cases h : k = (g, u) <;> simp [setPending, lookupPending, h, ih]

/-! ## A characterisation of `get_guild_state` -/

theorem get_guild_state_spec (doc : StateDoc) (g : Int) (owner : Option Int) :
    (get_guild_state doc g owner).2 = setGuild doc g (get_guild_state doc g owner).1 ∧
    (get_guild_state doc g owner).1.adminIDs =
      (match owner with
       | none => adminView doc g
       | some o =>
           if o ∈ adminView doc g then adminView doc g
           else adminView doc g ++ [o]) ∧
    (get_guild_state doc g owner).1.targetIDs = targetView doc g ∧
    (get_guild_state doc g owner).1.message = messageView doc g := by
  unfold get_guild_state
  cases h : lookupGuild doc g with
  | none =>
      cases owner with
      | none => simp [adminView, targetView, messageView, h]
      | some o => simp [adminView, targetView, messageView, h]
  | some gs =>
      cases owner with
      | none =>
          refine ⟨(setGuild_self_of_lookup doc g gs h).symm, ?_, ?_, ?_⟩ <;>
            simp [adminView, targetView, messageView, h]
      | some o =>
          dsimp only
          by_cases ho : o ∈ gs.adminIDs
          · have hv : o ∈ adminView doc g := by simp [adminView, h, ho]
            rw [if_pos ho]
            refine ⟨(setGuild_self_of_lookup doc g gs h).symm, ?_, ?_, ?_⟩ <;>
              simp [adminView, targetView, messageView, h, hv, ho]
          · have hv : o ∉ adminView doc g := by simp [adminView, h, ho]
            rw [if_neg ho]
            refine ⟨rfl, ?_, ?_, ?_⟩ <;>
              simp [adminView, targetView, messageView, h, hv, ho]

theorem adminView_setGuild_self (doc : StateDoc) (g : Int) (gs : GuildState) :
    adminView (setGuild doc g gs) g = gs.adminIDs := by
  simp [adminView, lookupGuild_setGuild_self]

theorem targetView_setGuild_self (doc : StateDoc) (g : Int) (gs : GuildState) :
    targetView (setGuild doc g gs) g = gs.targetIDs := by
  simp [targetView, lookupGuild_setGuild_self]

theorem messageView_setGuild_self (doc : StateDoc) (g : Int) (gs : GuildState) :
    messageView (setGuild doc g gs) g = gs.message := by
  simp [messageView, lookupGuild_setGuild_self]

theorem get_guild_state_doc (doc : StateDoc) (g : Int) (owner : Option Int) :
    (get_guild_state doc g owner).2 =
      setGuild doc g (get_guild_state doc g owner).1 :=
  (get_guild_state_spec doc g owner).1

theorem get_guild_state_targetIDs (doc : StateDoc) (g : Int) (owner : Option Int) :
    (get_guild_state doc g owner).1.targetIDs = targetView doc g :=
  (get_guild_state_spec doc g owner).2.2.1

theorem get_guild_state_message (doc : StateDoc) (g : Int) (owner : Option Int) :
    (get_guild_state doc g owner).1.message = messageView doc g :=
  (get_guild_state_spec doc g owner).2.2.2

theorem get_guild_state_adminIDs_none (doc : StateDoc) (g : Int) :
    (get_guild_state doc g none).1.adminIDs = adminView doc g :=
  (get_guild_state_spec doc g none).2.1

theorem get_guild_state_adminIDs_some (doc : StateDoc) (g o : Int) :
    (get_guild_state doc g (some o)).1.adminIDs =
      if o ∈ adminView doc g then adminView doc g else adminView doc g ++ [o] :=
  (get_guild_state_spec doc g (some o)).2.1

theorem adminView_get (doc : StateDoc) (g : Int) (owner : Option Int) :
    adminView (get_guild_state doc g owner).2 g =
      (get_guild_state doc g owner).1.adminIDs := by
  rw [get_guild_state_doc, adminView_setGuild_self]

theorem targetView_get (doc : StateDoc) (g : Int) (owner : Option Int) :
    targetView (get_guild_state doc g owner).2 g = targetView doc g := by
  rw [get_guild_state_doc, targetView_setGuild_self, get_guild_state_targetIDs]

theorem messageView_get (doc : StateDoc) (g : Int) (owner : Option Int) :
    messageView (get_guild_state doc g owner).2 g = messageView doc g := by
  rw [get_guild_state_doc, messageView_setGuild_self, get_guild_state_message]

theorem lookupGuild_get_ne (doc : StateDoc) (g g' : Int) (owner : Option Int)
    (h : g' ≠ g) :
    lookupGuild (get_guild_state doc g owner).2 g' = lookupGuild doc g' := by
  rw [get_guild_state_doc, lookupGuild_setGuild_ne _ _ _ _ h]

/-- On a document whose record for `g` already lists the owner, the accessor
with that owner is a pure read. -/
theorem get_guild_state_fix (doc : StateDoc) (g o : Int) (gs : GuildState)
    (h : lookupGuild doc g = some gs) (ho : o ∈ gs.adminIDs) :
    get_guild_state doc g (some o) = (gs, doc) := by
  unfold get_guild_state
  rw [h]
  simp [ho]

theorem get_guild_state_none_fix (doc : StateDoc) (g : Int) (gs : GuildState)
    (h : lookupGuild doc g = some gs) :
    get_guild_state doc g none = (gs, doc) := by
  unfold get_guild_state
  rw [h]

/-- `is_admin` is a pure read when the record already lists the owner, and
answers membership-or-owner. -/
theorem is_admin_fix (doc : StateDoc) (g u o : Int) (gs : GuildState)
    (h : lookupGuild doc g = some gs) (ho : o ∈ gs.adminIDs) :
    is_admin doc g u o = (decide (u = o ∨ u ∈ gs.adminIDs), doc) := by
  unfold is_admin
  by_cases hu : u = o
  · simp [hu]
  · rw [if_neg hu, get_guild_state_fix doc g o gs h ho]
    simp [hu]

/-- The owner short-circuit of `is_admin`: true with the document untouched,
even when no tenant record exists. -/
theorem is_admin_owner (doc : StateDoc) (g o : Int) :
    is_admin doc g o o = (true, doc) := by
  simp [is_admin]

theorem is_admin_adminView (doc : StateDoc) (g u o : Int) :
    adminView (is_admin doc g u o).2 g = adminView doc g ∨
    adminView (is_admin doc g u o).2 g = adminView doc g ++ [o] := by
  unfold is_admin
  by_cases hu : u = o
  · simp [hu]
  · rw [if_neg hu]
    dsimp only
    rw [adminView_get, get_guild_state_adminIDs_some]
    by_cases ho : o ∈ adminView doc g <;> simp [ho]

theorem is_admin_targetView (doc : StateDoc) (g u o : Int) :
    targetView (is_admin doc g u o).2 g = targetView doc g := by
  unfold is_admin
  by_cases hu : u = o
  · simp [hu]
  · rw [if_neg hu]
    dsimp only
    rw [targetView_get]

theorem is_admin_messageView (doc : StateDoc) (g u o : Int) :
    messageView (is_admin doc g u o).2 g = messageView doc g := by
  unfold is_admin
  by_cases hu : u = o
  · simp [hu]
  · rw [if_neg hu]
    dsimp only
    rw [messageView_get]

theorem lookupGuild_is_admin_ne (doc : StateDoc) (g g' u o : Int) (h : g' ≠ g) :
    lookupGuild (is_admin doc g u o).2 g' = lookupGuild doc g' := by
  unfold is_admin
  by_cases hu : u = o
  · simp [hu]
  · rw [if_neg hu]
    dsimp only
    rw [lookupGuild_get_ne _ _ _ _ h]

/-! ## Claim theorems: persistence layer -/

/-- C8.  Load never fails: on a present, well-formed store `load_state`
returns the parsed document; on an absent file, malformed content, an I/O
error, or any other error while reading, it returns the empty document
instead of raising. -/
theorem C8_load_never_fails :
    (∀ doc : StateDoc, load_state (.ok doc) = doc) ∧
    load_state .absent = [] ∧
    load_state .malformed = [] ∧
    load_state .ioError = [] ∧
    load_state .otherError = [] :=
  ⟨fun _ => rfl, rfl, rfl, rfl, rfl⟩

/-- C7.  Save retry semantics: `save_state` attempts the write up to exactly
3 times with one `RETRY_DELAY` sleep between consecutive attempts (so
`delays = attempts - 1` in each case); a success stops the loop immediately
(one failure then a success reports success after exactly 2 attempts), and
three failures raise an error carrying the last underlying cause. -/
theorem C7_save_retry_semantics :
    ∀ (ε : Type) (outcomes : AttemptOutcomes ε),
    (outcomes 0 = none → save_state outcomes = ⟨1, 0, none⟩) ∧
    (∀ e0, outcomes 0 = some e0 → outcomes 1 = none →
      save_state outcomes = ⟨2, 1, none⟩) ∧
    (∀ e0 e1, outcomes 0 = some e0 → outcomes 1 = some e1 → outcomes 2 = none →
      save_state outcomes = ⟨3, 2, none⟩) ∧
    (∀ e0 e1 e2, outcomes 0 = some e0 → outcomes 1 = some e1 →
      outcomes 2 = some e2 → save_state outcomes = ⟨3, 2, some e2⟩) := by
  intro ε outcomes
  refine ⟨?_, ?_, ?_, ?_⟩
  · intro h0
    simp [save_state, saveStateGo, h0]
  · intro e0 h0 h1
    simp [save_state, saveStateGo, h0, h1]
  · intro e0 e1 h0 h1 h2
    simp [save_state, saveStateGo, h0, h1, h2]
  · intro e0 e1 e2 h0 h1 h2
    simp [save_state, saveStateGo, h0, h1, h2]

/-- Witness for C7: with every attempt failing (cause `i` at attempt `i`),
`save_state` makes exactly 3 attempts, sleeps twice, and raises with the
last cause `2`. -/
theorem C7_save_retry_semantics_witness :
    save_state (fun i => some i : AttemptOutcomes Nat) = ⟨3, 2, some 2⟩ :=
  (C7_save_retry_semantics Nat (fun i => some i)).2.2.2 0 1 2 rfl rfl rfl

/-! ## Claim theorems: confirmation protocol -/

/-- C3.  `check_confirmation` returns true iff a pending entry exists for the
(tenant, actor) key and `now` minus its timestamp is at most 60 seconds
(inclusive at exactly 60, in which case the map is untouched); an entry older
than 60 seconds is deleted by the check, which returns false; with no entry
it returns false and leaves the map unchanged. -/
theorem C3_check_confirmation_semantics :
    ∀ (p : PendingMap) (g u : Int) (now : ℚ),
    ((check_confirmation p g u now).1 = true ↔
      ∃ ts, lookupPending p g u = some ts ∧ now - ts ≤ 60) ∧
    (∀ ts, lookupPending p g u = some ts → now - ts ≤ 60 →
      check_confirmation p g u now = (true, p)) ∧
    (∀ ts, lookupPending p g u = some ts → 60 < now - ts →
      check_confirmation p g u now = (false, erasePending p g u)) ∧
    (lookupPending p g u = none → check_confirmation p g u now = (false, p)) := by
  intro p g u now
  refine ⟨?_, ?_, ?_, ?_⟩
  · unfold check_confirmation
    cases h : lookupPending p g u with
    | none => simp [h]
    | some ts =>
        dsimp only
        by_cases hle : now - ts ≤ 60
        · rw [if_pos hle]
          exact ⟨fun _ => ⟨ts, rfl, hle⟩, fun _ => rfl⟩
        · rw [if_neg hle]
          constructor
          · intro hh
            simp at hh
          · rintro ⟨ts', h', hle'⟩
            injection h' with he
            subst he
            exact absurd hle' hle
  · intro ts h hle
    unfold check_confirmation
    rw [h]
    dsimp only
    rw [if_pos hle]
  · intro ts h hgt
    unfold check_confirmation
    rw [h]
    dsimp only
    rw [if_neg (not_le.mpr hgt)]
  · intro h
    unfold check_confirmation
    rw [h]

/-- Witness for C3: an entry issued at time 100 checked at time 161 (61 s
later, outside the window) yields false and is deleted from the map. -/
theorem C3_check_confirmation_semantics_witness :
    check_confirmation [((1, 2), 100)] 1 2 161 =
      (false, erasePending [((1, 2), 100)] 1 2) :=
  (C3_check_confirmation_semantics [((1, 2), 100)] 1 2 161).2.2.1 100
    (by decide) (by norm_num)

/-! ## Claim theorems: authorization and command orchestration -/

/-- Counterexample to C1 as stated.  Tenant 1 has `adminIDs = [10]`, owner 2;
the admin 10 issues `admin remove` targeting the owner.  The command is
rejected as a validation failure, but the tenant's `adminIDs` does change:
the authorization check self-heals the list by appending the owner id. -/
theorem C1_counterexample :
    (admin_command [(1, ⟨[10], [], ""⟩)] [] 1 10 2 2 false .remove 0 true).resp
        = Response.cannotRemoveOwner ∧
    adminView
        (admin_command [(1, ⟨[10], [], ""⟩)] [] 1 10 2 2 false .remove 0 true).doc 1
        = [10, 2] ∧
    adminView
        (admin_command [(1, ⟨[10], [], ""⟩)] [] 1 10 2 2 false .remove 0 true).doc 1
        ≠ adminView [(1, ⟨[10], [], ""⟩)] 1 := by
  refine ⟨rfl, rfl, ?_⟩
  decide

/-- Counterexample to C4 as stated.  Tenant 1 has `adminIDs = [5, 6]`, owner
7 (not in the list); admin 6 issues `admin add` for user 5, who is already a
member.  The add is rejected, but the list is modified anyway: the
authorization check self-heals it to `[5, 6, 7]`. -/
theorem C4_counterexample :
    (admin_command [(1, ⟨[5, 6], [], ""⟩)] [] 1 6 7 5 false .add 0 true).resp
        = Response.alreadyAdmin ∧
    adminView
        (admin_command [(1, ⟨[5, 6], [], ""⟩)] [] 1 6 7 5 false .add 0 true).doc 1
        = [5, 6, 7] ∧
    adminView
        (admin_command [(1, ⟨[5, 6], [], ""⟩)] [] 1 6 7 5 false .add 0 true).doc 1
        ≠ adminView [(1, ⟨[5, 6], [], ""⟩)] 1 := by
  refine ⟨rfl, rfl, ?_⟩
  decide

/-- Counterexample to C6 as stated.  A message in tenant 1 from actor 5,
whose platform bot-flag is `true` but who is not the bot itself, with 5 in
`targetIDs` and configured message `"Hello"`: the handler requests one reply
even though the author is a bot actor (only the bot's own messages are
skipped). -/
theorem C6_counterexample :
    (on_message [(1, ⟨[], [5], "Hello"⟩)] false true true 1 5 9).1 = ["Hello"] := by
  rfl

/-- C10.  The admin handler fetches the tenant record without the owner id
(main.py:267), so in a fresh tenant whose authorization passed via the owner
short-circuit the record is created with `adminIDs = []`; after the owner's
first successful `admin add`, `adminIDs` contains exactly the added user and
not the owner. -/
theorem C10_admin_path_owner_not_added :
    ∀ (doc : StateDoc) (pending : PendingMap) (g o u : Int) (now : ℚ),
    lookupGuild doc g = none → u ≠ o →
    admin_command doc pending g o o u false .add now true =
      ⟨.addedAdmin u, setGuild (setGuild doc g ⟨[], [], ""⟩) g ⟨[u], [], ""⟩,
        pending⟩ ∧
    adminView (admin_command doc pending g o o u false .add now true).doc g
      = [u] ∧
    o ∉ adminView (admin_command doc pending g o o u false .add now true).doc g := by
  intro doc pending g o u now h hne
  have hrun : admin_command doc pending g o o u false .add now true =
      ⟨.addedAdmin u, setGuild (setGuild doc g ⟨[], [], ""⟩) g ⟨[u], [], ""⟩,
        pending⟩ := by
    unfold admin_command
    rw [is_admin_owner]
    dsimp only
    unfold get_guild_state
    rw [h]
    simp [hne]
  refine ⟨hrun, ?_, ?_⟩
  · rw [hrun]
    exact adminView_setGuild_self _ _ _
  · rw [hrun]
    have := adminView_setGuild_self (setGuild doc g ⟨[], [], ""⟩) g ⟨[u], [], ""⟩
    rw [this]
    simp [Ne.symm hne]

/-- Witness for C10: the empty document, tenant 1 with owner 2, the owner
adds user 3: the resulting record is `adminIDs = [3]`, without the owner. -/
theorem C10_admin_path_owner_not_added_witness :
    admin_command [] [] 1 2 2 3 false .add 0 true =
      ⟨.addedAdmin 3, setGuild (setGuild [] 1 ⟨[], [], ""⟩) 1 ⟨[3], [], ""⟩, []⟩ ∧
    adminView (admin_command [] [] 1 2 2 3 false .add 0 true).doc 1 = [3] ∧
    (2 : Int) ∉ adminView (admin_command [] [] 1 2 2 3 false .add 0 true).doc 1 :=
  C10_admin_path_owner_not_added [] [] 1 2 3 0 rfl (by decide)

/-- The full run of an `admin remove` command targeting the owner: either the
actor fails authorization, or the owner-guard fires; in both cases no removal
happens (only `is_admin`'s self-heal and the accessor's record creation can
touch the document). -/
theorem admin_remove_owner_run (doc : StateDoc) (pending : PendingMap)
    (g e o : Int) (isBot : Bool) (now : ℚ) (saveOk : Bool) :
    admin_command doc pending g e o o isBot .remove now saveOk =
      if (is_admin doc g e o).1 = false then
        ⟨.noPermission, (is_admin doc g e o).2, pending⟩
      else
        ⟨.cannotRemoveOwner, (get_guild_state (is_admin doc g e o).2 g none).2,
          pending⟩ := by
  unfold admin_command
  dsimp only
  by_cases hb : (is_admin doc g e o).1 = false
  · rw [if_pos hb, if_pos hb]
  · rw [if_neg hb, if_neg hb, if_pos rfl]

/-- C1 (amended).  Owner supremacy: `is_admin(doc, g, o, o)` returns true
with the document untouched even when no record for `g` exists, and every
`admin remove` targeting the owner is rejected — as a validation failure
whenever the actor passes authorization — with nothing ever removed from
`adminIDs`; the only possible change to the tenant's `adminIDs` is the
authorization check self-healing it by appending the owner id, and no other
tenant's record changes and the pending map is untouched. -/
theorem C1_amended_owner_supremacy :
    (∀ (doc : StateDoc) (g o : Int), is_admin doc g o o = (true, doc)) ∧
    (∀ (doc : StateDoc) (pending : PendingMap) (g e o : Int)
        (isBot : Bool) (now : ℚ) (saveOk : Bool),
      ((admin_command doc pending g e o o isBot .remove now saveOk).resp
          = .noPermission ∨
        (admin_command doc pending g e o o isBot .remove now saveOk).resp
          = .cannotRemoveOwner) ∧
      ((is_admin doc g e o).1 = true →
        (admin_command doc pending g e o o isBot .remove now saveOk).resp
          = .cannotRemoveOwner) ∧
      (adminView (admin_command doc pending g e o o isBot .remove now saveOk).doc g
          = adminView doc g ∨
        adminView (admin_command doc pending g e o o isBot .remove now saveOk).doc g
          = adminView doc g ++ [o]) ∧
      (∀ g', g' ≠ g →
        lookupGuild (admin_command doc pending g e o o isBot .remove now saveOk).doc g'
          = lookupGuild doc g') ∧
      (admin_command doc pending g e o o isBot .remove now saveOk).pending
          = pending) := by
  refine ⟨is_admin_owner, ?_⟩
  intro doc pending g e o isBot now saveOk
  rw [admin_remove_owner_run]
  by_cases hb : (is_admin doc g e o).1 = false
  · rw [if_pos hb]
    refine ⟨Or.inl rfl, ?_, ?_, ?_, rfl⟩
    · intro ht
      rw [ht] at hb
      exact absurd hb (by decide)
    · exact is_admin_adminView doc g e o
    · intro g' hg'
      exact lookupGuild_is_admin_ne doc g g' e o hg'
  · rw [if_neg hb]
    refine ⟨Or.inr rfl, fun _ => rfl, ?_, ?_, rfl⟩
    · have h1 : adminView (get_guild_state (is_admin doc g e o).2 g none).2 g
          = adminView (is_admin doc g e o).2 g := by
        rw [adminView_get, get_guild_state_adminIDs_none]
      rw [h1]
      exact is_admin_adminView doc g e o
    · intro g' hg'
      rw [lookupGuild_get_ne _ _ _ _ hg']
      exact lookupGuild_is_admin_ne doc g g' e o hg'

/-- Witness for C1 (amended): the empty document, tenant 1 with owner 2; the
owner is admin with the document untouched, and the owner's own
`admin remove` targeting the owner is rejected as the owner-guard
validation failure. -/
theorem C1_amended_owner_supremacy_witness :
    is_admin [] 1 2 2 = (true, []) ∧
    (admin_command [] [] 1 2 2 2 false .remove 0 true).resp
      = Response.cannotRemoveOwner :=
  ⟨C1_amended_owner_supremacy.1 [] 1 2,
    (C1_amended_owner_supremacy.2 [] [] 1 2 2 false 0 true).2.1 (by decide)⟩

/-- `check_confirmation` answers true and leaves the map untouched when the
entry is inside the 60-second window. -/
theorem check_confirmation_in_window (p : PendingMap) (g u : Int) (now ts : ℚ)
    (h : lookupPending p g u = some ts) (hle : now - ts ≤ 60) :
    check_confirmation p g u now = (true, p) := by
  unfold check_confirmation
  rw [h]
  dsimp only
  rw [if_pos hle]

/-- The full run of an `admin remove` command on a tenant whose record lists
the owner, by an authorized actor, targeting a non-owner listed admin:
self-demotion routes through the confirmation protocol, removal of another
admin is immediate. -/
theorem admin_remove_run (doc : StateDoc) (pending : PendingMap)
    (g e o t : Int) (isBot : Bool) (now : ℚ) (saveOk : Bool) (gs : GuildState)
    (hg : lookupGuild doc g = some gs) (ho : o ∈ gs.adminIDs)
    (hAuth : e = o ∨ e ∈ gs.adminIDs) (hto : t ≠ o) (ht : t ∈ gs.adminIDs) :
    admin_command doc pending g e o t isBot .remove now saveOk =
      if t = e then
        (if (check_confirmation pending g e now).1 then
          ⟨if saveOk then .removedSelf else .saveFailed,
            setGuild doc g { gs with adminIDs := gs.adminIDs.erase t },
            clear_confirmation (check_confirmation pending g e now).2 g e⟩
        else
          ⟨.confirmPrompt, doc,
            request_confirmation (check_confirmation pending g e now).2 g e now⟩)
      else
        ⟨if saveOk then .removedOther t else .saveFailed,
          setGuild doc g { gs with adminIDs := gs.adminIDs.erase t }, pending⟩ := by
  unfold admin_command
  rw [is_admin_fix doc g e o gs hg ho]
  have hd : decide (e = o ∨ e ∈ gs.adminIDs) = true := decide_eq_true hAuth
  rw [hd]
  dsimp only
  rw [if_neg (by decide : ¬(true = false))]
  rw [get_guild_state_none_fix doc g gs hg]
  dsimp only
  rw [if_neg hto, if_neg (not_not_intro ht)]
  split_ifs <;> rfl

/-- C2 (amended).  Self-demotion protocol, on a tenant whose record lists
the owner and the actor `a` (a listed admin other than the owner): a first
`admin remove` of self with no valid pending confirmation answers the
confirmation prompt, mutates no document state, and records the pending
confirmation at `now`; a second invocation whose pending entry is within the
60-second window removes the actor from `adminIDs` and deletes the pending
entry; and a removal whose target is a listed admin other than the actor
(and not the owner) happens immediately with the pending map untouched.
(When the record does not list the owner, the first invocation does change
`adminIDs` through the authorization self-heal — see the counterexample.) -/
theorem C2_self_demotion_protocol :
    ∀ (doc : StateDoc) (pending : PendingMap) (g a o : Int) (gs : GuildState)
      (isBot : Bool) (now : ℚ) (saveOk : Bool),
    lookupGuild doc g = some gs → o ∈ gs.adminIDs → a ∈ gs.adminIDs → a ≠ o →
    (((check_confirmation pending g a now).1 = false →
      admin_command doc pending g a o a isBot .remove now saveOk =
        ⟨.confirmPrompt, doc,
          request_confirmation (check_confirmation pending g a now).2 g a now⟩ ∧
      lookupPending
        (admin_command doc pending g a o a isBot .remove now saveOk).pending g a
        = some now) ∧
    (∀ t0, lookupPending pending g a = some t0 → now - t0 ≤ 60 →
      admin_command doc pending g a o a isBot .remove now saveOk =
        ⟨if saveOk then .removedSelf else .saveFailed,
          setGuild doc g { gs with adminIDs := gs.adminIDs.erase a },
          erasePending pending g a⟩) ∧
    (∀ t, t ∈ gs.adminIDs → t ≠ o → t ≠ a →
      admin_command doc pending g a o t isBot .remove now saveOk =
        ⟨if saveOk then .removedOther t else .saveFailed,
          setGuild doc g { gs with adminIDs := gs.adminIDs.erase t },
          pending⟩)) := by
  intro doc pending g a o gs isBot now saveOk hg ho ha hao
  refine ⟨?_, ?_, ?_⟩
  · intro hck
    have hrun := admin_remove_run doc pending g a o a isBot now saveOk gs hg ho
      (Or.inr ha) hao ha
    rw [if_pos rfl] at hrun
    rw [hck] at hrun
    rw [if_neg (by decide : ¬(false = true))] at hrun
    refine ⟨hrun, ?_⟩
    rw [hrun]
    exact lookupPending_setPending_self _ g a now
  · intro t0 h0 hle
    have hck := check_confirmation_in_window pending g a now t0 h0 hle
    have hrun := admin_remove_run doc pending g a o a isBot now saveOk gs hg ho
      (Or.inr ha) hao ha
    rw [if_pos rfl, hck] at hrun
    exact hrun
  · intro t ht hto hta
    have hrun := admin_remove_run doc pending g a o t isBot now saveOk gs hg ho
      (Or.inr ha) hto ht
    rw [if_neg hta] at hrun
    exact hrun

/-- Witness for C2: tenant 1 with `adminIDs = [2, 4]`, owner 2, actor 4, a
pending confirmation issued at time 100 and confirmed at time 160 (exactly on
the inclusive boundary): the actor is removed and the pending entry deleted. -/
theorem C2_self_demotion_protocol_witness :
    admin_command [(1, ⟨[2, 4], [], ""⟩)] [((1, 4), 100)] 1 4 2 4 false
        .remove 160 true =
      ⟨.removedSelf,
        setGuild [(1, ⟨[2, 4], [], ""⟩)] 1
          ⟨([2, 4] : List Int).erase 4, [], ""⟩,
        erasePending [((1, 4), 100)] 1 4⟩ :=
  ((C2_self_demotion_protocol [(1, ⟨[2, 4], [], ""⟩)] [((1, 4), 100)] 1 4 2
      ⟨[2, 4], [], ""⟩ false 160 true rfl (by decide) (by decide)
      (by decide)).2.1 100 (by decide) (by norm_num))

/-- C9.  Persist-failure non-atomicity with surfaced error: for every
mutating command (admin add/remove including a confirmed self-demotion,
target add/remove, set-message) the resulting document and pending map are
identical whether the save succeeds or fails — the in-memory mutation is
never rolled back — and the failing run answers the save-failure response
exactly when the succeeding run would have answered a success confirmation. -/
theorem C9_persist_failure_not_rolled_back :
    ∀ (doc : StateDoc) (pending : PendingMap) (g e o t : Int) (isBot : Bool)
      (action : CmdAction) (now : ℚ) (text : String),
    ((admin_command doc pending g e o t isBot action now false).doc
        = (admin_command doc pending g e o t isBot action now true).doc ∧
      (admin_command doc pending g e o t isBot action now false).pending
        = (admin_command doc pending g e o t isBot action now true).pending ∧
      ((admin_command doc pending g e o t isBot action now true).resp.isSuccess
          = true ↔
        (admin_command doc pending g e o t isBot action now false).resp
          = .saveFailed)) ∧
    ((target_command doc pending g e o t isBot action false).doc
        = (target_command doc pending g e o t isBot action true).doc ∧
      (target_command doc pending g e o t isBot action false).pending
        = (target_command doc pending g e o t isBot action true).pending ∧
      ((target_command doc pending g e o t isBot action true).resp.isSuccess
          = true ↔
        (target_command doc pending g e o t isBot action false).resp
          = .saveFailed)) ∧
    ((setmessage_command doc pending g e o text false).doc
        = (setmessage_command doc pending g e o text true).doc ∧
      (setmessage_command doc pending g e o text false).pending
        = (setmessage_command doc pending g e o text true).pending ∧
      ((setmessage_command doc pending g e o text true).resp.isSuccess = true ↔
        (setmessage_command doc pending g e o text false).resp
          = .saveFailed)) := by
  intro doc pending g e o t isBot action now text
  refine ⟨?_, ?_, ?_⟩
  · cases action <;>
      (unfold admin_command; dsimp only; split_ifs <;>
        simp_all [Response.isSuccess])
  · cases action <;>
      (unfold target_command; dsimp only; split_ifs <;>
        simp_all [Response.isSuccess])
  · unfold setmessage_command
    dsimp only
    split_ifs <;> simp_all [Response.isSuccess]

/-- `N` successive calls of the tenant accessor with the same
`(tenantID, ownerID)` pair, threading the document through. -/
def iterGet (doc : StateDoc) (g o : Int) : Nat → StateDoc
  | 0 => doc
  | n + 1 => (get_guild_state (iterGet doc g o n) g (some o)).2

/-- One accessor call at the level of the `adminIDs` view. -/
theorem adminView_get_some_view (doc : StateDoc) (g o : Int) :
    adminView (get_guild_state doc g (some o)).2 g =
      if o ∈ adminView doc g then adminView doc g
      else adminView doc g ++ [o] := by
  rw [adminView_get, get_guild_state_adminIDs_some]

/-- C5.  Self-healing idempotence: starting from a document whose `adminIDs`
for the tenant does not already duplicate the owner, any `N ≥ 1` calls of the
accessor with the same `(tenantID, ownerID)` leave `adminIDs` containing the
owner id exactly once, and no previously present entry is ever removed. -/
theorem C5_self_healing_idempotence :
    ∀ (doc : StateDoc) (g o : Int),
    (adminView doc g).count o ≤ 1 →
    ∀ N, 1 ≤ N →
    (adminView (iterGet doc g o N) g).count o = 1 ∧
    ∀ x, x ∈ adminView doc g → x ∈ adminView (iterGet doc g o N) g := by
  intro doc g o hcount N hN
  have aux : ∀ n, (adminView (iterGet doc g o (n + 1)) g).count o = 1 ∧
      ∀ x, x ∈ adminView doc g → x ∈ adminView (iterGet doc g o (n + 1)) g := by
    intro n
    induction n with
    | zero =>
        constructor
        · show (adminView (get_guild_state doc g (some o)).2 g).count o = 1
          rw [adminView_get_some_view]
          by_cases ho : o ∈ adminView doc g
          · rw [if_pos ho]
            have h1 : 0 < (adminView doc g).count o := List.count_pos_iff.mpr ho
            omega
          · rw [if_neg ho]
            have h0 : (adminView doc g).count o = 0 := List.count_eq_zero.mpr ho
            simp [h0]
        · intro x hx
          show x ∈ adminView (get_guild_state doc g (some o)).2 g
          rw [adminView_get_some_view]
          by_cases ho : o ∈ adminView doc g
          · rw [if_pos ho]; exact hx
          · rw [if_neg ho]; simp [hx]
    | succ n ih =>
        obtain ⟨ih1, ih2⟩ := ih
        have ho : o ∈ adminView (iterGet doc g o (n + 1)) g := by
          have := ih1
          exact List.count_pos_iff.mp (by omega)
        have hfix : adminView (iterGet doc g o (n + 2)) g
            = adminView (iterGet doc g o (n + 1)) g := by
          show adminView (get_guild_state (iterGet doc g o (n + 1)) g (some o)).2 g = _
          rw [adminView_get_some_view, if_pos ho]
        rw [hfix]
        exact ⟨ih1, ih2⟩
  cases N with
  | zero => exact absurd hN (by decide)
  | succ n => exact aux n

/-- Witness for C5: the document `{1: {adminIDs: [4]}}` with owner 2 (absent
from the list, count 0 ≤ 1); three accessor calls leave the owner exactly
once and keep the pre-existing entry 4. -/
theorem C5_self_healing_idempotence_witness :
    (adminView (iterGet [(1, ⟨[4], [], ""⟩)] 1 2 3) 1).count 2 = 1 ∧
    ∀ x, x ∈ adminView [(1, ⟨[4], [], ""⟩)] 1 →
      x ∈ adminView (iterGet [(1, ⟨[4], [], ""⟩)] 1 2 3) 1 :=
  C5_self_healing_idempotence [(1, ⟨[4], [], ""⟩)] 1 2 (by decide) 3 (by decide)

/-- `is_target` with an owner id answers membership of the pre-state
`targetIDs` (the self-heal touches only `adminIDs`). -/
theorem is_target_spec (doc : StateDoc) (g a o : Int) :
    (is_target doc g a (some o)).1 = decide (a ∈ targetView doc g) ∧
    (is_target doc g a (some o)).2 = (get_guild_state doc g (some o)).2 := by
  unfold is_target
  dsimp only
  rw [get_guild_state_targetIDs]
  exact ⟨rfl, rfl⟩

/-- C6 (amended).  Auto-reply gating: for a message that is not the bot's own
(`isSelf = false`) in a tenant context, exactly one reply carrying exactly
the configured message text is requested when the author is in the tenant's
`targetIDs` and the configured message is non-empty, and no reply is
requested when the author is not a target or the message is empty; the bot's
own messages and messages outside a tenant context request nothing.  The
author's platform bot-flag is delivered with the event but never consulted:
only the bot's own messages are skipped, not bot-authored messages in
general. -/
theorem C6_amended_auto_reply_gating :
    ∀ (doc : StateDoc) (isSelf authorIsBot inGuild : Bool) (g a o : Int),
    (isSelf = true →
      on_message doc isSelf authorIsBot inGuild g a o = ([], doc)) ∧
    (inGuild = false →
      (on_message doc isSelf authorIsBot inGuild g a o).1 = []) ∧
    (isSelf = false → inGuild = true →
      ((a ∈ targetView doc g ∧ messageView doc g ≠ "" →
        (on_message doc isSelf authorIsBot inGuild g a o).1
          = [messageView doc g]) ∧
      (a ∉ targetView doc g →
        (on_message doc isSelf authorIsBot inGuild g a o).1 = []) ∧
      (messageView doc g = "" →
        (on_message doc isSelf authorIsBot inGuild g a o).1 = []))) := by
  intro doc isSelf authorIsBot inGuild g a o
  refine ⟨?_, ?_, ?_⟩
  · intro h
    subst h
    rfl
  · intro h
    subst h
    cases isSelf <;> rfl
  · intro hS hG
    subst hS
    subst hG
    unfold on_message
    rw [if_neg (by decide : ¬(false = true))]
    rw [if_neg (by simp : ¬(!true) = true)]
    dsimp only
    have ht1 := (is_target_spec doc g a o).1
    have ht2 := (is_target_spec doc g a o).2
    have hmsg : (get_guild_state (is_target doc g a (some o)).2 g (some o)).1.message
        = messageView doc g := by
      rw [get_guild_state_message, ht2, messageView_get]
    refine ⟨?_, ?_, ?_⟩
    · rintro ⟨hT, hM⟩
      rw [ht1, decide_eq_true hT]
      rw [if_pos rfl]
      rw [hmsg]
      rw [if_pos hM]
    · intro hT
      rw [ht1, decide_eq_false hT]
      rw [if_neg (by decide : ¬(false = true))]
    · intro hM
      rw [ht1]
      by_cases hT : a ∈ targetView doc g
      · rw [decide_eq_true hT, if_pos rfl]
        rw [hmsg, hM]
        rw [if_neg (by simp)]
      · rw [decide_eq_false hT, if_neg (by decide : ¬(false = true))]

/-- Witness for C6 (amended): a non-bot non-self author 5 in `targetIDs` of
tenant 1 with configured message `"Hello"` gets exactly one reply with the
configured text. -/
theorem C6_amended_auto_reply_gating_witness :
    (on_message [(1, ⟨[], [5], "Hello"⟩)] false false true 1 5 9).1
      = [messageView [(1, ⟨[], [5], "Hello"⟩)] 1] :=
  ((C6_amended_auto_reply_gating [(1, ⟨[], [5], "Hello"⟩)] false false true
      1 5 9).2.2 rfl rfl).1 ⟨by decide, by decide⟩

/-! ## The no-duplicate invariant I2 -/

/-- Invariant I2: every tenant's `adminIDs` and `targetIDs` (seen through the
document) contain each user id at most once. -/
def WF (doc : StateDoc) : Prop :=
  ∀ g, (adminView doc g).Nodup ∧ (targetView doc g).Nodup

theorem nodup_append_singleton (l : List Int) (a : Int) (h : l.Nodup)
    (ha : a ∉ l) : (l ++ [a]).Nodup := by
  simp [List.nodup_append, h, ha]

theorem adminView_setGuild_ne (doc : StateDoc) (g g' : Int) (gs : GuildState)
    (h : g' ≠ g) : adminView (setGuild doc g gs) g' = adminView doc g' := by
  rw [adminView, lookupGuild_setGuild_ne _ _ _ _ h, adminView]

theorem targetView_setGuild_ne (doc : StateDoc) (g g' : Int) (gs : GuildState)
    (h : g' ≠ g) : targetView (setGuild doc g gs) g' = targetView doc g' := by
  rw [targetView, lookupGuild_setGuild_ne _ _ _ _ h, targetView]

theorem WF_setGuild (doc : StateDoc) (g : Int) (gs : GuildState) (h : WF doc)
    (ha : gs.adminIDs.Nodup) (ht : gs.targetIDs.Nodup) :
    WF (setGuild doc g gs) := by
  intro g'
  by_cases hg : g' = g
  · subst hg
    rw [adminView_setGuild_self, targetView_setGuild_self]
    exact ⟨ha, ht⟩
  · rw [adminView_setGuild_ne _ _ _ _ hg, targetView_setGuild_ne _ _ _ _ hg]
    exact h g'

theorem WF_get (doc : StateDoc) (g : Int) (owner : Option Int) (h : WF doc) :
    WF (get_guild_state doc g owner).2 := by
  rw [get_guild_state_doc]
  refine WF_setGuild _ _ _ h ?_ ?_
  · cases owner with
    | none =>
        rw [get_guild_state_adminIDs_none]
        exact (h g).1
    | some o =>
        rw [get_guild_state_adminIDs_some]
        by_cases ho : o ∈ adminView doc g
        · rw [if_pos ho]
          exact (h g).1
        · rw [if_neg ho]
          exact nodup_append_singleton _ _ (h g).1 ho
  · rw [get_guild_state_targetIDs]
    exact (h g).2

theorem WF_is_admin (doc : StateDoc) (g u o : Int) (h : WF doc) :
    WF (is_admin doc g u o).2 := by
  unfold is_admin
  by_cases hu : u = o
  · rw [if_pos hu]
    exact h
  · rw [if_neg hu]
    dsimp only
    exact WF_get doc g (some o) h

/-- is_admin's self-heal at the view level, with the freshness of the
appended owner recorded. -/
theorem is_admin_adminView_cases (doc : StateDoc) (g u o : Int) :
    adminView (is_admin doc g u o).2 g = adminView doc g ∨
    (adminView (is_admin doc g u o).2 g = adminView doc g ++ [o] ∧
      o ∉ adminView doc g) := by
  unfold is_admin
  by_cases hu : u = o
  · rw [if_pos hu]
    exact Or.inl rfl
  · rw [if_neg hu]
    dsimp only
    rw [adminView_get, get_guild_state_adminIDs_some]
    by_cases ho : o ∈ adminView doc g
    · rw [if_pos ho]
      exact Or.inl rfl
    · rw [if_neg ho]
      exact Or.inr ⟨rfl, ho⟩

theorem adminView_get_some_fix (doc : StateDoc) (g o : Int)
    (ho : o ∈ adminView doc g) :
    adminView (get_guild_state doc g (some o)).2 g = adminView doc g := by
  rw [adminView_get_some_view, if_pos ho]

theorem WF_admin_command (doc : StateDoc) (pending : PendingMap)
    (g e o t : Int) (isBot : Bool) (action : CmdAction) (now : ℚ)
    (saveOk : Bool) (h : WF doc) :
    WF (admin_command doc pending g e o t isBot action now saveOk).doc := by
  have h2 : WF (is_admin doc g e o).2 := WF_is_admin doc g e o h
  have h3 : WF (get_guild_state (is_admin doc g e o).2 g none).2 :=
    WF_get _ _ _ h2
  have hA : (get_guild_state (is_admin doc g e o).2 g none).1.adminIDs.Nodup := by
    rw [get_guild_state_adminIDs_none]
    exact (h2 g).1
  have hT : (get_guild_state (is_admin doc g e o).2 g none).1.targetIDs.Nodup := by
    rw [get_guild_state_targetIDs]
    exact (h2 g).2
  cases action with
  | add =>
      unfold admin_command
      dsimp only
      split_ifs with hauth hbot hdup hsv
      · exact h2
      · exact h3
      · exact h3
      · exact WF_setGuild _ _ _ h3
          (nodup_append_singleton _ _ hA (fun hm => hdup (Or.inl hm))) hT
      · exact WF_setGuild _ _ _ h3
          (nodup_append_singleton _ _ hA (fun hm => hdup (Or.inl hm))) hT
  | remove =>
      unfold admin_command
      dsimp only
      split_ifs
      all_goals try dsimp only
      all_goals
        first
          | exact h2
          | exact h3
          | exact WF_setGuild _ _ _ h3 (hA.erase t) hT

theorem WF_target_command (doc : StateDoc) (pending : PendingMap)
    (g e o t : Int) (isBot : Bool) (action : CmdAction) (saveOk : Bool)
    (h : WF doc) :
    WF (target_command doc pending g e o t isBot action saveOk).doc := by
  have h2 : WF (is_admin doc g e o).2 := WF_is_admin doc g e o h
  have h3 : WF (get_guild_state (is_admin doc g e o).2 g (some o)).2 :=
    WF_get _ _ _ h2
  have hA : (get_guild_state (is_admin doc g e o).2 g (some o)).1.adminIDs.Nodup := by
    rw [get_guild_state_adminIDs_some]
    by_cases ho : o ∈ adminView (is_admin doc g e o).2 g
    · rw [if_pos ho]
      exact (h2 g).1
    · rw [if_neg ho]
      exact nodup_append_singleton _ _ (h2 g).1 ho
  have hT : (get_guild_state (is_admin doc g e o).2 g (some o)).1.targetIDs.Nodup := by
    rw [get_guild_state_targetIDs]
    exact (h2 g).2
  cases action with
  | add =>
      unfold target_command
      dsimp only
      split_ifs with hauth hbot hdup hsv
      · exact h2
      · exact h3
      · exact h3
      · exact WF_setGuild _ _ _ h3 hA (nodup_append_singleton _ _ hT hdup)
      · exact WF_setGuild _ _ _ h3 hA (nodup_append_singleton _ _ hT hdup)
  | remove =>
      unfold target_command
      dsimp only
      split_ifs
      all_goals try dsimp only
      all_goals
        first
          | exact h2
          | exact h3
          | exact WF_setGuild _ _ _ h3 hA (hT.erase t)

/-- One operation of the command surface that touches the membership lists:
an `/admin` command, a `/target` command, or a bare tenant-accessor call. -/
inductive Op where
  | admin (g e o t : Int) (isBot : Bool) (action : CmdAction) (now : ℚ)
      (saveOk : Bool)
  | target (g e o t : Int) (isBot : Bool) (action : CmdAction) (saveOk : Bool)
  | accessor (g : Int) (owner : Option Int)

/-- Run one operation on the (document, pending map) pair. -/
def runOp (s : StateDoc × PendingMap) : Op → StateDoc × PendingMap
  | .admin g e o t b a now sv =>
      ((admin_command s.1 s.2 g e o t b a now sv).doc,
        (admin_command s.1 s.2 g e o t b a now sv).pending)
  | .target g e o t b a sv =>
      ((target_command s.1 s.2 g e o t b a sv).doc,
        (target_command s.1 s.2 g e o t b a sv).pending)
  | .accessor g owner => ((get_guild_state s.1 g owner).2, s.2)

/-- Run a sequence of operations. -/
def runOps (s : StateDoc × PendingMap) : List Op → StateDoc × PendingMap
  | [] => s
  | op :: ops => runOps (runOp s op) ops

theorem WF_runOp (s : StateDoc × PendingMap) (op : Op) (h : WF s.1) :
    WF (runOp s op).1 := by
  cases op with
  | admin g e o t b a now sv => exact WF_admin_command s.1 s.2 g e o t b a now sv h
  | target g e o t b a sv => exact WF_target_command s.1 s.2 g e o t b a sv h
  | accessor g owner => exact WF_get s.1 g owner h

theorem WF_runOps (ops : List Op) (s : StateDoc × PendingMap) (h : WF s.1) :
    WF (runOps s ops).1 := by
  induction ops generalizing s with
  | nil => exact h
  | cons op ops ih => exact ih (runOp s op) (WF_runOp s op h)

/-- C4 (amended).  No-duplicate invariant: every sequence of admin-add,
admin-remove, target-add, target-remove and tenant-accessor operations
started from a document satisfying I2 (each id at most once per list) yields
a document satisfying I2; an `admin add` whose user is already a member or is
the owner, and a `target add` whose user is already a target, are rejected
with the duplicate never appended — though the rejected command may still
change `adminIDs` by the authorization self-heal appending the owner id
(`targetIDs` is never touched by a rejected add). -/
theorem C4_amended_no_duplicates :
    (∀ (ops : List Op) (doc : StateDoc) (pending : PendingMap),
      WF doc → WF (runOps (doc, pending) ops).1) ∧
    (∀ (doc : StateDoc) (pending : PendingMap) (g e o t : Int) (now : ℚ)
        (saveOk : Bool),
      t ∈ adminView doc g ∨ t = o →
      ((admin_command doc pending g e o t false .add now saveOk).resp
          = .noPermission ∨
        (admin_command doc pending g e o t false .add now saveOk).resp
          = .alreadyAdmin) ∧
      (adminView (admin_command doc pending g e o t false .add now saveOk).doc g
          = adminView doc g ∨
        adminView (admin_command doc pending g e o t false .add now saveOk).doc g
          = adminView doc g ++ [o]) ∧
      targetView (admin_command doc pending g e o t false .add now saveOk).doc g
          = targetView doc g) ∧
    (∀ (doc : StateDoc) (pending : PendingMap) (g e o t : Int) (saveOk : Bool),
      t ∈ targetView doc g →
      ((target_command doc pending g e o t false .add saveOk).resp
          = .noPermission ∨
        (target_command doc pending g e o t false .add saveOk).resp
          = .alreadyTarget) ∧
      targetView (target_command doc pending g e o t false .add saveOk).doc g
          = targetView doc g ∧
      (adminView (target_command doc pending g e o t false .add saveOk).doc g
          = adminView doc g ∨
        adminView (target_command doc pending g e o t false .add saveOk).doc g
          = adminView doc g ++ [o])) := by
  refine ⟨fun ops doc pending h => WF_runOps ops (doc, pending) h, ?_, ?_⟩
  · intro doc pending g e o t now sv hdup
    unfold admin_command
    dsimp only
    by_cases hauth : (is_admin doc g e o).1 = false
    · rw [if_pos hauth]
      exact ⟨Or.inl rfl, is_admin_adminView doc g e o,
        is_admin_targetView doc g e o⟩
    · rw [if_neg hauth]
      rw [if_neg (by decide : ¬(false = true))]
      have hmem : t ∈ (get_guild_state (is_admin doc g e o).2 g none).1.adminIDs
          ∨ t = o := by
        rcases hdup with hm | he
        · left
          rw [get_guild_state_adminIDs_none]
          rcases is_admin_adminView_cases doc g e o with hv | ⟨hv, _⟩
          · rw [hv]
            exact hm
          · rw [hv]
            exact List.mem_append_left _ hm
        · right
          exact he
      rw [if_pos hmem]
      refine ⟨Or.inr rfl, ?_, ?_⟩
      · have h1 : adminView (get_guild_state (is_admin doc g e o).2 g none).2 g
            = adminView (is_admin doc g e o).2 g := by
          rw [adminView_get, get_guild_state_adminIDs_none]
        rw [h1]
        exact is_admin_adminView doc g e o
      · rw [targetView_get, is_admin_targetView]
  · intro doc pending g e o t sv hdup
    unfold target_command
    dsimp only
    by_cases hauth : (is_admin doc g e o).1 = false
    · rw [if_pos hauth]
      exact ⟨Or.inl rfl, is_admin_targetView doc g e o,
        is_admin_adminView doc g e o⟩
    · rw [if_neg hauth]
      rw [if_neg (by decide : ¬(false = true))]
      have hmem : t ∈ (get_guild_state (is_admin doc g e o).2 g (some o)).1.targetIDs := by
        rw [get_guild_state_targetIDs, is_admin_targetView]
        exact hdup
      rw [if_pos hmem]
      refine ⟨Or.inr rfl, ?_, ?_⟩
      · rw [targetView_get, is_admin_targetView]
      · rcases is_admin_adminView_cases doc g e o with hv | ⟨hv, hno⟩
        · rw [adminView_get_some_view, hv]
          by_cases ho : o ∈ adminView doc g
          · rw [if_pos ho]
            exact Or.inl rfl
          · rw [if_neg ho]
            exact Or.inr rfl
        · have ho : o ∈ adminView (is_admin doc g e o).2 g := by
            rw [hv]
            simp
          rw [adminView_get_some_fix _ _ _ ho, hv]
          exact Or.inr rfl

/-- Witness for C4 (amended): from the empty (trivially I2) document, an
admin-add, a self-demotion prompt and a target-add keep I2; and the duplicate
admin-add of user 5 in tenant 1 (already a member) is rejected with response
"already an admin". -/
theorem C4_amended_no_duplicates_witness :
    WF (runOps (([] : StateDoc), ([] : PendingMap))
        [.admin 1 2 2 3 false .add 0 true,
         .target 1 2 2 4 false .add true,
         .admin 1 2 2 3 false .remove 0 true]).1 ∧
    ((admin_command [(1, ⟨[5, 6], [], ""⟩)] [] 1 6 7 5 false .add 0 true).resp
        = Response.noPermission ∨
      (admin_command [(1, ⟨[5, 6], [], ""⟩)] [] 1 6 7 5 false .add 0 true).resp
        = Response.alreadyAdmin) :=
  ⟨C4_amended_no_duplicates.1
      [.admin 1 2 2 3 false .add 0 true,
       .target 1 2 2 4 false .add true,
       .admin 1 2 2 3 false .remove 0 true] [] []
      (fun g => by constructor <;> simp [adminView, targetView, lookupGuild]),
    (C4_amended_no_duplicates.2.1 [(1, ⟨[5, 6], [], ""⟩)] [] 1 6 7 5 0 true
      (Or.inl (by decide))).1⟩

/-- Counterexample to C2 as stated.  Tenant 1 has `adminIDs = [4]` and owner
2 (not in the list); actor 4 (in the explicit admin list) issues its first
self-demotion with no pending confirmation.  The prompt is issued, but
`adminIDs` does change on this first invocation: the authorization check
self-heals the list to `[4, 2]`. -/
theorem C2_counterexample :
    (admin_command [(1, ⟨[4], [], ""⟩)] [] 1 4 2 4 false .remove 0 true).resp
        = Response.confirmPrompt ∧
    adminView
        (admin_command [(1, ⟨[4], [], ""⟩)] [] 1 4 2 4 false .remove 0 true).doc 1
        = [4, 2] ∧
    adminView
        (admin_command [(1, ⟨[4], [], ""⟩)] [] 1 4 2 4 false .remove 0 true).doc 1
        ≠ adminView [(1, ⟨[4], [], ""⟩)] 1 := by
  refine ⟨rfl, rfl, ?_⟩
  decide
